import Mathlib

/-!
Formalisation of the report renderer in `html_generator.py` (TrendRadar).

The module builds HTML fragments by string concatenation:
an error list (`render_html_report`, lines 44-55), per-keyword "hot group"
blocks (`generate_word_group_html`) and a "new items" section
(`generate_new_news_html`, which accepts either a dict-shaped or a
list-shaped `new_titles` input).

Python dictionaries are modelled as association lists in insertion order;
optional record fields (`d.get(k, default)`) are modelled as `Option`
fields read with `Option.getD`; a raising access (`d["k"]` on a missing
key, or `.get` on a `None` dict) is modelled by an `Option` result where
`none` is the raised exception.
-/

namespace TrendRadar

/-- Whitespace as recognised by CPython's `Py_UNICODE_ISSPACE`, the one
predicate behind `\s` in `re` on `str` patterns, `str.split()` with no
argument, and `str.strip()` with no argument: the ASCII controls
U+0009-U+000D and U+001C-U+001F, the space U+0020, NEL U+0085, NBSP
U+00A0, Ogham space U+1680, the typographic spaces U+2000-U+200A, the
line and paragraph separators U+2028 and U+2029, the narrow and medium
spaces U+202F and U+205F, and the ideographic space U+3000. -/
def isPySpace (c : Char) : Bool :=
  (0x09 ≤ c.toNat && c.toNat ≤ 0x0d) ||
  (0x1c ≤ c.toNat && c.toNat ≤ 0x1f) ||
  c.toNat = 0x20 ||
  c.toNat = 0x85 ||
  c.toNat = 0xa0 ||
  c.toNat = 0x1680 ||
  (0x2000 ≤ c.toNat && c.toNat ≤ 0x200a) ||
  c.toNat = 0x2028 ||
  c.toNat = 0x2029 ||
  c.toNat = 0x202f ||
  c.toNat = 0x205f ||
  c.toNat = 0x3000

/-- Helper for `str.split()`: splits a character list on runs of
whitespace, discarding empty fields; `cur` is the current in-progress
field, reversed. -/
def splitAux : List Char → List Char → List (List Char)
  | [], [] => []
  | [], cur => [cur.reverse]
  | c :: cs, cur =>
    if isPySpace c then
      match cur with
      | [] => splitAux cs []
      | _ :: _ => cur.reverse :: splitAux cs []
    else splitAux cs (c :: cur)

/-- Python `word.split()` (split on whitespace runs, no empty fields). -/
def pySplit (s : String) : List String :=
  (splitAux s.data []).map String.mk

/-- Python `s.strip()`: remove leading and trailing whitespace. -/
def pyStrip (s : String) : String :=
  String.mk (((s.data.dropWhile isPySpace).reverse.dropWhile isPySpace).reverse)

/-- Python `"".join`-style concatenation, mirroring a `+=` loop over a
list of already-rendered fragments. -/
def concatStrings (l : List String) : String :=
  l.foldl (fun a b => a ++ b) ""

/-- Python `min` over a list known to be non-empty (`min []` would raise;
the code always guards with `if ranks:`). -/
def pyMin : List Nat → Nat
  | [] => 0
  | r :: rs => rs.foldl Nat.min r

/-- Python `max` over a list known to be non-empty. -/
def pyMax : List Nat → Nat
  | [] => 0
  | r :: rs => rs.foldl Nat.max r

/-- Python `d.get(k, default)` on a string-to-string dict. -/
def pyGet (m : List (String × String)) (k dflt : String) : String :=
  match m.lookup k with
  | some v => v
  | none => dflt

/-- Helper for the substring test: does `needle` occur in the haystack? -/
def containsAux (needle : List Char) : List Char → Bool
  | [] => needle.isEmpty
  | c :: cs => needle.isPrefixOf (c :: cs) || containsAux needle cs

/-- Python `x in word` substring test. -/
def strContains (hay needle : String) : Bool :=
  containsAux needle.data hay.data

/-- The regex match `re.match(r'^(#\s*[^#\s]+)', word)` of
`generate_word_group_html`: a leading `#`, then greedily zero or more
whitespace characters, then greedily one or more characters that are
neither `#` nor whitespace; returns the captured group. -/
def leadingHashMatch (s : String) : Option String :=
  match s.data with
  | [] => none
  | c :: rest =>
    if c = '#' then
      let ws := rest.takeWhile isPySpace
      let rest2 := rest.dropWhile isPySpace
      let tok := rest2.takeWhile (fun d => d != '#' && !isPySpace d)
      if tok.isEmpty then none else some (String.mk ('#' :: (ws ++ tok)))
    else none

/-- The `display_name` computation of `generate_word_group_html`
(lines 101-112): the stripped regex capture if the pattern matches, else
the first whitespace-delimited token of `word`, else `word` itself. -/
def display_name (word : String) : String :=
  match leadingHashMatch word with
  | some cap => pyStrip cap
  | none =>
    match pySplit word with
    | p :: _ => p
    | [] => word

/-- The hot-level computation of `generate_word_group_html`
(lines 114-123): `(hot_class, hot_text)` from `count`. -/
def hotClassText (count : Nat) : String × String :=
  if count ≥ 20 then ("hot", "🔥 " ++ toString count ++ " 条")
  else if count ≥ 10 then ("warm", toString count ++ " 条")
  else ("normal", toString count ++ " 条")

/-- The category computation of `generate_word_group_html`
(lines 125-132). -/
def category (word : String) : String :=
  if ["音乐", "演唱会", "抖音", "B站", "bilibili"].any (fun x => strContains word x) then
    "music"
  else if ["电影", "原神", "黑神话", "游戏"].any (fun x => strContains word x) then
    "entertainment"
  else if ["胖东来", "996", "调休", "房价"].any (fun x => strContains word x) then
    "social"
  else
    "tech"

/-- One title record. Fields other than `title` are read with
`title_info.get(...)` and are therefore optional; `title` itself is read
with `title_info["title"]` in the hot-group builder (raises when missing)
but with `.get("title", "")` in the new-items builder. -/
structure TitleInfo where
  title : Option String := none
  source_name : Option String := none
  ranks : Option (List Nat) := none
  url : Option String := none
  time_display : Option String := none
  is_new : Option Bool := none
deriving Repr, DecidableEq

/-- The `rank_class` computation of the hot-group builder
(lines 144-149). -/
def hotRankClass (ranks : List Nat) : String :=
  if ¬ranks.isEmpty ∧ pyMin ranks ≤ 3 then "top"
  else if ¬ranks.isEmpty ∧ pyMin ranks ≤ 10 then "high"
  else ""

/-- The `rank_display` computation of the hot-group builder
(lines 151-157). -/
def hotRankDisplay (ranks : List Nat) : String :=
  match ranks with
  | [] => ""
  | [r] => toString r ++ "位"
  | _ :: _ :: _ => toString (pyMin ranks) ++ "-" ++ toString (pyMax ranks) ++ "位"

/-- One item row of the hot-group builder (loop body, lines 136-181).
`none` models the `KeyError` raised by `title_info["title"]` when the
record has no title. -/
def newsItemHtml (idx : Nat) (ti : TitleInfo) : Option String :=
  match ti.title with
  | none => none
  | some title =>
    let source := ti.source_name.getD "未知平台"
    let ranks := ti.ranks.getD []
    let times := [ti.time_display.getD ""]
    let url := ti.url.getD ""
    let rank_class := hotRankClass ranks
    let rank_display := hotRankDisplay ranks
    let time_display :=
      match times with
      | [] => ""
      | [t] => t
      | t :: _ :: _ => t ++ "~" ++ times.getLast!
    let is_new := ti.is_new.getD false
    some ("\n                <div class=\"news-item" ++ (if is_new then " new" else "") ++
      "\">\n                    <div class=\"news-rank " ++ rank_class ++ "\">" ++
      toString idx ++
      "</div>\n                    <div class=\"news-content\">\n                        <div class=\"news-meta\">\n                            <span class=\"news-source\">" ++
      source ++
      "</span>\n                            <span>" ++ rank_display ++
      "</span>\n                            <span>" ++ time_display ++
      "</span>\n                        </div>\n                        <h3 class=\"news-title\">\n                            <a href=\"" ++
      url ++ "\" class=\"news-link\" target=\"_blank\">" ++ title ++
      "</a>\n                        </h3>\n                    </div>\n                    " ++
      (if is_new then "<span class=\"new-badge\">NEW</span>" else "") ++
      "\n                </div>")

/-- Maps a fallible renderer over a list; `none` as soon as one element
fails, mirroring an exception escaping a Python `for` loop. -/
def mapOpt (f : α → Option β) : List α → Option (List β)
  | [] => some []
  | x :: xs =>
    match f x, mapOpt f xs with
    | some y, some ys => some (y :: ys)
    | _, _ => none

/-- The item rows of one hot group: `for idx, title_info in
enumerate(titles[:20], 1)` (line 136), each rendered by the loop body;
`none` when some rendered record is missing its `title`. -/
def newsItemsList (titles : List TitleInfo) : Option (List String) :=
  mapOpt (fun p => newsItemHtml p.1 p.2) (List.enumFrom 1 (titles.take 20))

/-- One entry of `report_data["stats"]`: the fields `generate_word_group_html`
reads with raising indexing (`stat["word"]` etc.). -/
structure Stat where
  word : String
  count : Nat
  titles : List TitleInfo
deriving Repr, DecidableEq

/-- `generate_word_group_html(stat, id_to_name)` (lines 95-195);
`id_to_name` is accepted and ignored, as in the source. `none` models a
raised `KeyError` for a rendered record without `title`. -/
def generate_word_group_html (stat : Stat) (id_to_name : Option (List (String × String))) :
    Option String :=
  let dn := display_name stat.word
  let hc := hotClassText stat.count
  let cat := category stat.word
  (newsItemsList stat.titles).map (fun items =>
    "\n            <div class=\"hot-group\" data-category=\"" ++ cat ++
    "\">\n                <div class=\"group-header\" onclick=\"toggleGroup(this)\">\n                    <div class=\"group-info\">\n                        <span class=\"group-name\">" ++
    dn ++ "</span>\n                        <span class=\"group-count " ++ hc.1 ++ "\">" ++
    hc.2 ++
    "</span>\n                    </div>\n                    <span class=\"expand-icon\">▼</span>\n                </div>\n                <div class=\"news-list\">\n                    " ++
    concatStrings items ++ "\n                </div>\n            </div>")

/-- Fixed opening of the error section (lines 47-50). -/
def errHeader : String :=
  "\n        <div class=\"error-section\">\n            <div class=\"error-title\">获取失败的平台</div>\n            <ul class=\"error-list\">"

/-- Fixed closing of the error section (lines 53-55). -/
def errFooter : String :=
  "\n            </ul>\n        </div>"

/-- One list item of the error section (line 52); the identifier is
interpolated raw. -/
def errItem (failed_id : String) : String :=
  "<li class=\x27error-item\x27>" ++ failed_id ++ "</li>"

/-- The `error_section` fragment of `render_html_report` (lines 44-55):
empty unless `failed_ids` is a non-empty list (`if failed_ids:`), else
header, one `+=` item per identifier in order, footer. -/
def error_section (failed_ids : Option (List String)) : String :=
  match failed_ids with
  | none => ""
  | some ids =>
    if ids.isEmpty then ""
    else (ids.foldl (fun acc fid => acc ++ errItem fid) errHeader) ++ errFooter

/-- One value of the dict-shaped `new_titles`: `{rank, url}` read with
`title_data.get("rank", 0)` / `title_data.get("url", "")`. -/
structure NewTitleData where
  rank : Option Nat := none
  url : Option String := none
deriving Repr, DecidableEq

/-- One record of the list-shaped `new_titles`: fields read with
`source_data.get("source_name", "未知平台")` and
`source_data.get("titles", [])`. -/
structure SourceRecord where
  source_name : Option String := none
  titles : Option (List TitleInfo) := none
deriving Repr, DecidableEq

/-- The polymorphic `new_titles` argument: dict of source-id to
(title to data) in insertion order, or list of source records. -/
inductive NewTitles where
  | dict (entries : List (String × List (String × NewTitleData)))
  | seq (sources : List SourceRecord)
deriving Repr, DecidableEq

/-- The rank extraction of the list branch (line 258):
`title_info.get("ranks", [0])[0] if title_info.get("ranks") else 0`. -/
def newRankFromInfo (ti : TitleInfo) : Nat :=
  match ti.ranks with
  | some (r :: _) => r
  | _ => 0

/-- The `rank_class` computation shared verbatim by both branches of
`generate_new_news_html` (lines 223-227 and 261-265). -/
def newRankClass (rank : Nat) : String :=
  if rank ≤ 3 then "top"
  else if rank ≤ 10 then "high"
  else ""

/-- One item row of the "new items" section; the f-string template is
character-identical between the dict branch (lines 229-238) and the list
branch (lines 267-276). -/
def newItemHtml (idx rank : Nat) (url title : String) : String :=
  let rank_class := newRankClass rank
  "\n                        <div class=\"new-item\">\n                            <div class=\"new-item-rank " ++
  rank_class ++ "\">" ++ toString idx ++
  "</div>\n                            <div class=\"new-item-rank " ++ rank_class ++ "\">" ++
  toString rank ++
  "</div>\n                            <div class=\"new-item-content\">\n                                <div class=\"new-item-title\">\n                                    <a href=\"" ++
  url ++ "\" class=\"news-link\" target=\"_blank\">" ++ title ++
  "</a>\n                                </div>\n                            </div>\n                        </div>"

/-- The item rows of one dict-shaped source:
`for idx, (title, title_data) in enumerate(list(titles.items())[:10], 1)`
(lines 219-238). -/
def dictSourceItems (titles : List (String × NewTitleData)) : List String :=
  (List.enumFrom 1 (titles.take 10)).map (fun p =>
    newItemHtml p.1 (p.2.2.rank.getD 0) (p.2.2.url.getD "") p.2.1)

/-- The item rows of one list-shaped source:
`for idx, title_info in enumerate(titles[:10], 1)` (lines 256-276). -/
def seqSourceItems (titles : List TitleInfo) : List String :=
  (List.enumFrom 1 (titles.take 10)).map (fun p =>
    newItemHtml p.1 (newRankFromInfo p.2) (p.2.url.getD "") (p.2.title.getD ""))

/-- The per-source wrapper, shared verbatim by both branches
(lines 240-244 and 278-282); `count` is `len(titles)`. -/
def sourceGroupHtml (source_name : String) (count : Nat) (source_items_html : String) : String :=
  "\n                <div class=\"new-source-group\">\n                    <div class=\"new-source-title\">" ++
  source_name ++ " · " ++ toString count ++
  "条</div>\n                    " ++ source_items_html ++ "\n                </div>"

/-- One dict-shaped source group, for a source already known non-empty:
the displayed name is `id_to_name.get(source_id, source_id)` (line 216),
the displayed count `len(titles)` is untruncated (line 242). -/
def dictSourceGroup (m : List (String × String)) (source_id : String)
    (titles : List (String × NewTitleData)) : String :=
  sourceGroupHtml (pyGet m source_id source_id) titles.length
    (concatStrings (dictSourceItems titles))

/-- One list-shaped source group (lines 250-282): skipped (empty) when the
source's titles are empty, else wrapped with the untruncated count. -/
def seqSourceGroup (s : SourceRecord) : String :=
  let source_name := s.source_name.getD "未知平台"
  let titles := s.titles.getD []
  if titles.isEmpty then ""
  else sourceGroupHtml source_name titles.length (concatStrings (seqSourceItems titles))

/-- `total_count` of the dict branch (line 211):
`sum(len(titles) for titles in new_titles.values())`. -/
def totalCountDict (entries : List (String × List (String × NewTitleData))) : Nat :=
  entries.foldl (fun acc p => acc + p.2.length) 0

/-- `total_count` of the list branch (line 247):
`sum(len(source.get("titles", [])) for source in new_titles)`. -/
def totalCountSeq (sources : List SourceRecord) : Nat :=
  sources.foldl (fun acc s => acc + (s.titles.getD []).length) 0

/-- The document-level wrapper of the new-items section (lines 284-288). -/
def newSectionWrapper (total_count : Nat) (new_items_html : String) : String :=
  "\n            <div class=\"new-section\">\n                <div class=\"new-section-title\">本次新增热点 (共 " ++
  toString total_count ++
  " 条)</div>\n                " ++ new_items_html ++ "\n            </div>"

/-- The loop of the dict branch (lines 214-244), accumulating
`new_items_html` from `acc`. For each source with non-empty titles the
code calls `id_to_name.get(source_id, source_id)`; when `id_to_name` is
`None` that raises `AttributeError`, modelled by `none`. -/
def dictItemsHtmlAux (id_to_name : Option (List (String × String))) :
    List (String × List (String × NewTitleData)) → String → Option String
  | [], acc => some acc
  | p :: rest, acc =>
    if p.2.isEmpty then dictItemsHtmlAux id_to_name rest acc
    else
      match id_to_name with
      | none => none
      | some m => dictItemsHtmlAux id_to_name rest (acc ++ dictSourceGroup m p.1 p.2)

/-- The `new_items_html` accumulation of the dict branch (lines 213-244),
started from the empty string. -/
def dictItemsHtml (entries : List (String × List (String × NewTitleData)))
    (id_to_name : Option (List (String × String))) : Option String :=
  dictItemsHtmlAux id_to_name entries ""

/-- The `new_items_html` accumulation of the list branch (lines 249-282);
`id_to_name` is never consulted here. -/
def seqItemsHtml (sources : List SourceRecord) : String :=
  sources.foldl (fun acc s => acc ++ seqSourceGroup s) ""

/-- `generate_new_news_html(new_titles, id_to_name)` (lines 198-288).
The leading `if not new_titles: return ""` covers the empty dict and the
empty list; otherwise each shape computes its untruncated `total_count`,
accumulates its per-source groups, and wraps them. `none` models the
`AttributeError` of the dict branch when `id_to_name` is `None` and some
source is non-empty. -/
def generate_new_news_html (new_titles : NewTitles)
    (id_to_name : Option (List (String × String))) : Option String :=
  match new_titles with
  | .dict entries =>
    if entries.isEmpty then some ""
    else (dictItemsHtml entries id_to_name).map (fun items =>
      newSectionWrapper (totalCountDict entries) items)
  | .seq sources =>
    if sources.isEmpty then some ""
    else some (newSectionWrapper (totalCountSeq sources) (seqItemsHtml sources))

/-- Shape equivalence of one title: the dict entry `(title, {rank, url})`
corresponds to the record `{title, url, ranks:[rank]}` of the list form. -/
def corrTitle (title : String) (d : NewTitleData) (ti : TitleInfo) : Bool :=
  d.rank.isSome && d.url.isSome &&
  ti.title == some title && ti.ranks == d.rank.map (fun r => [r]) && ti.url == d.url

/-- Pointwise shape equivalence of the titles of one source. -/
def corrTitles : List (String × NewTitleData) → List TitleInfo → Bool
  | [], [] => true
  | (t, d) :: tds, ti :: tis => corrTitle t d ti && corrTitles tds tis
  | _, _ => false

/-- Shape equivalence of one source: the list-form record carries exactly
the name `idToName` resolves the dict-form source-id to. -/
def corrSource (m : List (String × String)) (source_id : String)
    (td : List (String × NewTitleData)) (s : SourceRecord) : Bool :=
  (s.source_name == some (pyGet m source_id source_id)) &&
  (match s.titles with
   | some l => corrTitles td l
   | none => false)

/-- Shape equivalence of the two `new_titles` forms, source by source. -/
def corrNewTitles (m : List (String × String)) :
    List (String × List (String × NewTitleData)) → List SourceRecord → Bool
  | [], [] => true
  | (sid, td) :: D, s :: L => corrSource m sid td s && corrNewTitles m D L
  | _, _ => false

/-- A character list whose head, if any, would end the captured token of
the leading-hash pattern (it is a `#` or whitespace). -/
def stopsToken : List Char → Prop
  | [] => True
  | c :: _ => c = '#' ∨ isPySpace c = true

/-- A character list whose head, if any, is whitespace (ends the first
whitespace-delimited token of `str.split()`). -/
def spaceOrEnd : List Char → Prop
  | [] => True
  | c :: _ => isPySpace c = true

/-- Folding string append from `init` appends the whole concatenation. -/
theorem concat_foldl (l : List String) (init : String) :
    l.foldl (fun a b => a ++ b) init = init ++ concatStrings l := by
  induction l generalizing init with
  | nil => simp [concatStrings, String.append_empty]
  | cons x xs ih =>
    have hx : concatStrings (x :: xs) = x ++ concatStrings xs := by
      show (x :: xs).foldl (fun a b => a ++ b) "" = x ++ concatStrings xs
      rw [List.foldl_cons, String.empty_append, ih x]
    rw [List.foldl_cons, ih (init ++ x), hx, String.append_assoc]

/-- Cons step of fragment concatenation. -/
theorem concatStrings_cons (x : String) (xs : List String) :
    concatStrings (x :: xs) = x ++ concatStrings xs := by
  show (x :: xs).foldl (fun a b => a ++ b) "" = x ++ concatStrings xs
  rw [List.foldl_cons, String.empty_append, concat_foldl]

/-- A `+=` accumulation of rendered fragments over a list equals the
start string followed by the concatenation of the per-element renders. -/
theorem foldl_render_eq (f : α → String) (l : List α) (init : String) :
    l.foldl (fun acc x => acc ++ f x) init = init ++ concatStrings (l.map f) := by
  induction l generalizing init with
  | nil => simp [concatStrings, String.append_empty]
  | cons x xs ih =>
    rw [List.foldl_cons, ih, List.map_cons, concatStrings_cons, String.append_assoc]

/-- C2: the hot-group count badge uses class "hot" with the fire-emoji
text for `count ≥ 20`, class "warm" for `10 ≤ count < 20`, and class
"normal" below 10, the last two with plain text `"{count} 条"`. -/
theorem c2_hot_badge_thresholds (count : Nat) :
    (20 ≤ count → hotClassText count = ("hot", "🔥 " ++ toString count ++ " 条")) ∧
    (10 ≤ count → count < 20 → hotClassText count = ("warm", toString count ++ " 条")) ∧
    (count < 10 → hotClassText count = ("normal", toString count ++ " 条")) := by
  refine ⟨fun h => ?_, fun h1 h2 => ?_, fun h => ?_⟩
  · unfold hotClassText
    rw [if_pos (show count ≥ 20 from h)]
  · unfold hotClassText
    rw [if_neg (by omega), if_pos (show count ≥ 10 from h1)]
  · unfold hotClassText
    rw [if_neg (by omega), if_neg (by omega)]

/-- Witness for C2 at the boundary: 19 renders "warm", 20 renders "hot"
with the fire-emoji prefix. -/
theorem c2_hot_badge_thresholds_witness :
    hotClassText 19 = ("warm", toString 19 ++ " 条") ∧
    hotClassText 20 = ("hot", "🔥 " ++ toString 20 ++ " 条") :=
  ⟨(c2_hot_badge_thresholds 19).2.1 (by decide) (by decide),
   (c2_hot_badge_thresholds 20).1 (by decide)⟩

/-- C4: rank display is empty without ranks (and then no rank class),
`"{r}位"` for a single rank, `"{min}-{max}位"` for several; the rank
class is "top" for `min ≤ 3`, "high" for `3 < min ≤ 10`, none above. -/
theorem c4_rank_display_class (ranks : List Nat) :
    (ranks = [] → hotRankDisplay ranks = "" ∧ hotRankClass ranks = "") ∧
    (∀ r, ranks = [r] → hotRankDisplay ranks = toString r ++ "位") ∧
    (2 ≤ ranks.length →
      hotRankDisplay ranks = toString (pyMin ranks) ++ "-" ++ toString (pyMax ranks) ++ "位") ∧
    (ranks ≠ [] → pyMin ranks ≤ 3 → hotRankClass ranks = "top") ∧
    (ranks ≠ [] → 3 < pyMin ranks → pyMin ranks ≤ 10 → hotRankClass ranks = "high") ∧
    (ranks ≠ [] → 10 < pyMin ranks → hotRankClass ranks = "") := by
  have hne : ranks ≠ [] → ¬(ranks.isEmpty = true) := by
    intro h
    simpa [List.isEmpty_iff] using h
  refine ⟨?_, ?_, ?_, ?_, ?_, ?_⟩
  · rintro rfl
    exact ⟨rfl, rfl⟩
  · rintro r rfl
    rfl
  · intro h
    cases ranks with
    | nil => simp at h
    | cons r1 rest =>
      cases rest with
      | nil => simp at h
      | cons r2 rs => rfl
  · intro h1 h2
    unfold hotRankClass
    rw [if_pos ⟨hne h1, h2⟩]
  · intro h1 h2 h3
    unfold hotRankClass
    rw [if_neg (by rintro ⟨-, hc⟩; omega), if_pos ⟨hne h1, h3⟩]
  · intro h1 h2
    unfold hotRankClass
    rw [if_neg (by rintro ⟨-, hc⟩; omega), if_neg (by rintro ⟨-, hc⟩; omega)]

/-- Witness for C4: `ranks = [2, 5]` renders "2-5位" with class "top". -/
theorem c4_rank_display_class_witness :
    hotRankDisplay [2, 5] = toString (pyMin [2, 5]) ++ "-" ++ toString (pyMax [2, 5]) ++ "位" ∧
    hotRankClass [2, 5] = "top" :=
  ⟨(c4_rank_display_class [2, 5]).2.2.1 (by decide),
   (c4_rank_display_class [2, 5]).2.2.2.1 (by decide) (by decide)⟩

/-- C10: in the new-items builder a record with missing or empty `ranks`
gets numeric rank 0 and class "top"; any rank up to 10 gets a non-empty
class ("top" up to 3, "high" from 4 to 10), while in the hot-group
builder an empty `ranks` yields no class at all. -/
theorem c10_new_rank_defaults (ti : TitleInfo) (r : Nat) :
    ((ti.ranks = none ∨ ti.ranks = some []) →
      newRankFromInfo ti = 0 ∧ newRankClass (newRankFromInfo ti) = "top") ∧
    (r ≤ 3 → newRankClass r = "top") ∧
    (3 < r → r ≤ 10 → newRankClass r = "high") ∧
    (r ≤ 10 → newRankClass r ≠ "") ∧
    hotRankClass [] = "" := by
  refine ⟨?_, ?_, ?_, ?_, rfl⟩
  · rintro (h | h) <;> simp [newRankFromInfo, h, newRankClass]
  · intro h
    unfold newRankClass
    rw [if_pos h]
  · intro h1 h2
    unfold newRankClass
    rw [if_neg (by omega), if_pos h2]
  · intro h
    unfold newRankClass
    by_cases h3 : r ≤ 3
    · rw [if_pos h3]
      decide
    · rw [if_neg h3, if_pos h]
      decide

/-- Witness for C10: the all-defaults record gets rank 0 and class
"top"; rank 7 gets class "high". -/
theorem c10_new_rank_defaults_witness :
    newRankFromInfo {} = 0 ∧ newRankClass (newRankFromInfo {}) = "top" ∧
    newRankClass 7 = "high" :=
  ⟨((c10_new_rank_defaults {} 7).1 (Or.inl rfl)).1,
   ((c10_new_rank_defaults {} 7).1 (Or.inl rfl)).2,
   (c10_new_rank_defaults {} 7).2.2.1 (by decide) (by decide)⟩

/-- C6: the error section is empty for `None` or `[]`, and otherwise is
the fixed header, one raw list item per failed identifier in input
order, and the fixed footer. -/
theorem c6_error_section (ids : List String) :
    error_section none = "" ∧
    error_section (some []) = "" ∧
    (ids ≠ [] →
      error_section (some ids) = errHeader ++ concatStrings (ids.map errItem) ++ errFooter ∧
      (ids.map errItem).length = ids.length) := by
  refine ⟨rfl, rfl, fun h => ⟨?_, by simp⟩⟩
  show (if ids.isEmpty = true then ""
    else List.foldl (fun acc fid => acc ++ errItem fid) errHeader ids ++ errFooter) =
    errHeader ++ concatStrings (List.map errItem ids) ++ errFooter
  rw [if_neg (by simpa [List.isEmpty_iff] using h), foldl_render_eq]

/-- Witness for C6: `["a", "b"]` yields the two items "a" then "b". -/
theorem c6_error_section_witness :
    error_section (some ["a", "b"]) =
      errHeader ++ concatStrings (["a", "b"].map errItem) ++ errFooter ∧
    (["a", "b"].map errItem).length = ["a", "b"].length :=
  ⟨((c6_error_section ["a", "b"]).2.2 (by decide)).1,
   ((c6_error_section ["a", "b"]).2.2 (by decide)).2⟩

/-- An item row renders whenever the record has a title. -/
theorem newsItemHtml_isSome (idx : Nat) (ti : TitleInfo) (h : ti.title.isSome) :
    (newsItemHtml idx ti).isSome := by
  obtain ⟨t, ht⟩ := Option.isSome_iff_exists.mp h
  simp [newsItemHtml, ht]

/-- A fallible map succeeds when every element succeeds. -/
theorem mapOpt_isSome (f : α → Option β) (l : List α) (h : ∀ x ∈ l, (f x).isSome) :
    (mapOpt f l).isSome := by
  induction l with
  | nil => simp [mapOpt]
  | cons x xs ih =>
    obtain ⟨y, hy⟩ := Option.isSome_iff_exists.mp (h x (by simp))
    obtain ⟨ys, hys⟩ := Option.isSome_iff_exists.mp (ih (fun z hz => h z (by simp [hz])))
    simp [mapOpt, hy, hys]

/-- The second component of an enumerated element is an element. -/
theorem mem_enumFrom_snd {p : Nat × α} :
    ∀ {n : Nat} {l : List α}, p ∈ List.enumFrom n l → p.2 ∈ l := by
  intro n l
  induction l generalizing n with
  | nil => simp [List.enumFrom]
  | cons x xs ih =>
    intro h
    rcases (by simpa [List.enumFrom] using h : p = (n, x) ∨ p ∈ List.enumFrom (n + 1) xs) with
      h | h
    · simp [h]
    · exact List.mem_cons_of_mem x (ih h)

/-- C9: the hot-group builder tolerates missing optional fields: an item
renders whenever `title` is present, a record with only a title renders
identically to one whose optional fields carry the documented defaults
("未知平台", `[]`, `""`, `""`, `false`), and a whole group renders
whenever all its records have titles. -/
theorem c9_missing_fields_tolerated :
    (∀ (idx : Nat) (ti : TitleInfo), ti.title.isSome → (newsItemHtml idx ti).isSome) ∧
    (∀ (idx : Nat) (s : String),
      newsItemHtml idx { title := some s } =
        newsItemHtml idx { title := some s, source_name := some "未知平台", ranks := some [],
                           url := some "", time_display := some "", is_new := some false }) ∧
    (∀ (stat : Stat) (m : Option (List (String × String))),
      (∀ ti ∈ stat.titles, ti.title.isSome) → (generate_word_group_html stat m).isSome) := by
  refine ⟨fun idx ti h => newsItemHtml_isSome idx ti h, fun idx s => rfl, fun stat m h => ?_⟩
  have hlist : (newsItemsList stat.titles).isSome := by
    apply mapOpt_isSome
    intro p hp
    exact newsItemHtml_isSome p.1 p.2 (h p.2 (List.mem_of_mem_take (mem_enumFrom_snd hp)))
  obtain ⟨items, hit⟩ := Option.isSome_iff_exists.mp hlist
  simp [generate_word_group_html, hit]

/-- Witness for C9: a record carrying nothing but a title renders. -/
theorem c9_missing_fields_tolerated_witness :
    (newsItemHtml 1 { title := some "t" }).isSome =
      true :=
  c9_missing_fields_tolerated.1 1 { title := some "t" } (by decide)

/-- C8: the list-shaped branch never consults `idToName`, and in the
dict-shaped branch the rendered source name is the `idToName` entry when
the source-id is present and the raw source-id otherwise. -/
theorem c8_id_to_name_usage :
    (∀ (sources : List SourceRecord) (m1 m2 : Option (List (String × String))),
      generate_new_news_html (.seq sources) m1 = generate_new_news_html (.seq sources) m2) ∧
    (∀ (m : List (String × String)) (sid : String) (titles : List (String × NewTitleData)) v,
      m.lookup sid = some v →
      dictSourceGroup m sid titles =
        sourceGroupHtml v titles.length (concatStrings (dictSourceItems titles))) ∧
    (∀ (m : List (String × String)) (sid : String) (titles : List (String × NewTitleData)),
      m.lookup sid = none →
      dictSourceGroup m sid titles =
        sourceGroupHtml sid titles.length (concatStrings (dictSourceItems titles))) := by
  refine ⟨fun sources m1 m2 => rfl, fun m sid titles v h => ?_, fun m sid titles h => ?_⟩
  · unfold dictSourceGroup pyGet
    rw [h]
  · unfold dictSourceGroup pyGet
    rw [h]

/-- Witness for C8: a present id resolves to its display name, an absent
id falls back to itself, and a list-shaped call ignores the mapping. -/
theorem c8_id_to_name_usage_witness :
    generate_new_news_html (.seq []) none = generate_new_news_html (.seq []) (some [("a", "b")]) ∧
    dictSourceGroup [("a", "Alpha")] "a" [] =
      sourceGroupHtml "Alpha" ([] : List (String × NewTitleData)).length
        (concatStrings (dictSourceItems [])) ∧
    dictSourceGroup [("a", "Alpha")] "x" [] =
      sourceGroupHtml "x" ([] : List (String × NewTitleData)).length
        (concatStrings (dictSourceItems [])) :=
  ⟨c8_id_to_name_usage.1 [] none (some [("a", "b")]),
   c8_id_to_name_usage.2.1 [("a", "Alpha")] "a" [] "Alpha" (by decide),
   c8_id_to_name_usage.2.2 [("a", "Alpha")] "x" [] (by decide)⟩

/-- A successful fallible map has one output per input, in order. -/
theorem mapOpt_eq_some (f : α → Option β) :
    ∀ (l : List α) (ys : List β), mapOpt f l = some ys →
      ys.length = l.length ∧
      ∀ (i : Nat) (h1 : i < l.length) (h2 : i < ys.length),
        f (l.get ⟨i, h1⟩) = some (ys.get ⟨i, h2⟩) := by
  intro l
  induction l with
  | nil =>
    intro ys h
    obtain rfl : ([] : List β) = ys := by simpa [mapOpt] using h
    exact ⟨rfl, fun i h1 h2 => absurd h1 (by simp)⟩
  | cons x xs ih =>
    intro ys h
    cases hfx : f x with
    | none => simp [mapOpt, hfx] at h
    | some y =>
      cases hrec : mapOpt f xs with
      | none => simp [mapOpt, hfx, hrec] at h
      | some ys' =>
        simp only [mapOpt, hfx, hrec] at h
        obtain rfl : y :: ys' = ys := by simpa using h
        obtain ⟨hlen, hget⟩ := ih ys' hrec
        refine ⟨by simp [hlen], ?_⟩
        intro i h1 h2
        match i with
        | 0 => simpa using hfx
        | Nat.succ j =>
          have h1' : j < xs.length := by simpa using h1
          have h2' : j < ys'.length := by simpa using h2
          simpa using hget j h1' h2'

/-- Pre-truncating the titles to 20 does not change the rendered item
rows of a hot group. -/
theorem newsItemsList_take (titles : List TitleInfo) :
    newsItemsList (titles.take 20) = newsItemsList titles := by
  unfold newsItemsList
  rw [List.take_take]
  simp

/-- C5: each hot group renders exactly the first 20 titles in input
order, silently dropping the rest (the whole group fragment is unchanged
by any input beyond position 20), and each new-items source renders
exactly the first 10 items in input order in both input shapes. -/
theorem c5_truncation :
    (∀ (titles extra : List TitleInfo), 20 ≤ titles.length →
      newsItemsList (titles ++ extra) = newsItemsList titles) ∧
    (∀ (titles : List TitleInfo) (items : List String), newsItemsList titles = some items →
      items.length = min 20 titles.length ∧
      ∀ (i : Nat) (h2 : i < items.length) (h1 : i < titles.length),
        newsItemHtml (i + 1) (titles.get ⟨i, h1⟩) = some (items.get ⟨i, h2⟩)) ∧
    (∀ (stat : Stat) (m : Option (List (String × String))),
      generate_word_group_html stat m =
        generate_word_group_html ⟨stat.word, stat.count, stat.titles.take 20⟩ m) ∧
    (∀ (titles extra : List (String × NewTitleData)), 10 ≤ titles.length →
      dictSourceItems (titles ++ extra) = dictSourceItems titles) ∧
    (∀ titles : List (String × NewTitleData),
      (dictSourceItems titles).length = min 10 titles.length ∧
      ∀ (i : Nat) (h2 : i < (dictSourceItems titles).length) (h1 : i < titles.length),
        (dictSourceItems titles).get ⟨i, h2⟩ =
          newItemHtml (i + 1) ((titles.get ⟨i, h1⟩).2.rank.getD 0)
            ((titles.get ⟨i, h1⟩).2.url.getD "") (titles.get ⟨i, h1⟩).1) ∧
    (∀ (titles extra : List TitleInfo), 10 ≤ titles.length →
      seqSourceItems (titles ++ extra) = seqSourceItems titles) ∧
    (∀ titles : List TitleInfo,
      (seqSourceItems titles).length = min 10 titles.length ∧
      ∀ (i : Nat) (h2 : i < (seqSourceItems titles).length) (h1 : i < titles.length),
        (seqSourceItems titles).get ⟨i, h2⟩ =
          newItemHtml (i + 1) (newRankFromInfo (titles.get ⟨i, h1⟩))
            ((titles.get ⟨i, h1⟩).url.getD "") ((titles.get ⟨i, h1⟩).title.getD "")) := by
  refine ⟨?_, ?_, ?_, ?_, ?_, ?_, ?_⟩
  · intro titles extra h
    unfold newsItemsList
    rw [List.take_append_of_le_length (by omega)]
  · intro titles items h
    obtain ⟨hlen, hget⟩ := mapOpt_eq_some _ _ _ h
    refine ⟨by simpa using hlen, ?_⟩
    intro i h2 h1
    have h2' : i < (List.enumFrom 1 (titles.take 20)).length := by
      rw [← hlen]
      exact h2
    have hx := hget i h2' h2
    rw [← hx]
    simp [List.get_eq_getElem, List.getElem_enumFrom, List.getElem_take, Nat.add_comm]
  · intro stat m
    simp only [generate_word_group_html]
    rw [newsItemsList_take]
  · intro titles extra h
    unfold dictSourceItems
    rw [List.take_append_of_le_length (by omega)]
  · intro titles
    refine ⟨by simp [dictSourceItems], ?_⟩
    intro i h2 h1
    simp [dictSourceItems, List.get_eq_getElem, List.getElem_enumFrom, List.getElem_take,
      Nat.add_comm]
  · intro titles extra h
    unfold seqSourceItems
    rw [List.take_append_of_le_length (by omega)]
  · intro titles
    refine ⟨by simp [seqSourceItems], ?_⟩
    intro i h2 h1
    simp [seqSourceItems, List.get_eq_getElem, List.getElem_enumFrom, List.getElem_take,
      Nat.add_comm]

/-- Witness for C5: a 21st title (hot group) and an 11th item (both
new-item shapes) are dropped without changing the rendered rows. -/
theorem c5_truncation_witness :
    newsItemsList
        (List.replicate 20 ({ title := some "t" } : TitleInfo) ++ [{ title := some "u" }]) =
      newsItemsList (List.replicate 20 { title := some "t" }) ∧
    seqSourceItems
        (List.replicate 10 ({ title := some "t" } : TitleInfo) ++ [{ title := some "u" }]) =
      seqSourceItems (List.replicate 10 { title := some "t" }) ∧
    dictSourceItems
        (List.replicate 10 (("t", { rank := some 1, url := some "u" }) :
          String × NewTitleData) ++ [("x", ⟨none, none⟩)]) =
      dictSourceItems (List.replicate 10 ("t", { rank := some 1, url := some "u" })) :=
  ⟨c5_truncation.1 (List.replicate 20 { title := some "t" }) [{ title := some "u" }] (by simp),
   c5_truncation.2.2.2.2.2.1 (List.replicate 10 { title := some "t" }) [{ title := some "u" }]
     (by simp),
   c5_truncation.2.2.2.1 (List.replicate 10 ("t", { rank := some 1, url := some "u" }))
     [("x", ⟨none, none⟩)] (by simp)⟩

/-- Accumulating `acc + f x` over a list adds the sum of the images. -/
theorem foldl_add_eq (f : α → Nat) (l : List α) (n : Nat) :
    l.foldl (fun acc x => acc + f x) n = n + (l.map f).sum := by
  induction l generalizing n with
  | nil => simp
  | cons x xs ih => simp [List.foldl_cons, ih, Nat.add_assoc]

/-- C7: the document-level new-items count is the sum of the full,
untruncated per-source title counts in both shapes, the wrapper header
displays exactly that count, and each per-source header displays the
source's full title count even though at most 10 items are rendered. -/
theorem c7_untruncated_counts :
    (∀ entries : List (String × List (String × NewTitleData)),
      totalCountDict entries = (entries.map (fun p => p.2.length)).sum) ∧
    (∀ sources : List SourceRecord,
      totalCountSeq sources = (sources.map (fun s => (s.titles.getD []).length)).sum) ∧
    (∀ (entries : List (String × List (String × NewTitleData)))
        (m : Option (List (String × String))), entries ≠ [] →
      generate_new_news_html (.dict entries) m =
        (dictItemsHtml entries m).map (fun items =>
          newSectionWrapper (totalCountDict entries) items)) ∧
    (∀ (sources : List SourceRecord) (m : Option (List (String × String))), sources ≠ [] →
      generate_new_news_html (.seq sources) m =
        some (newSectionWrapper (totalCountSeq sources) (seqItemsHtml sources))) ∧
    (∀ (s : SourceRecord) (titles : List TitleInfo), s.titles = some titles → titles ≠ [] →
      seqSourceGroup s =
        sourceGroupHtml (s.source_name.getD "未知平台") titles.length
          (concatStrings (seqSourceItems titles)) ∧
      (seqSourceItems titles).length = min 10 titles.length) ∧
    (∀ (m : List (String × String)) (sid : String) (titles : List (String × NewTitleData)),
      dictSourceGroup m sid titles =
        sourceGroupHtml (pyGet m sid sid) titles.length
          (concatStrings (dictSourceItems titles)) ∧
      (dictSourceItems titles).length = min 10 titles.length) := by
  refine ⟨?_, ?_, ?_, ?_, ?_, ?_⟩
  · intro entries
    unfold totalCountDict
    rw [foldl_add_eq]
    simp
  · intro sources
    unfold totalCountSeq
    rw [foldl_add_eq]
    simp
  · intro entries m h
    show (if entries.isEmpty = true then some "" else (dictItemsHtml entries m).map (fun items =>
      newSectionWrapper (totalCountDict entries) items)) = _
    rw [if_neg (by simpa [List.isEmpty_iff] using h)]
  · intro sources m h
    show (if sources.isEmpty = true then some ""
      else some (newSectionWrapper (totalCountSeq sources) (seqItemsHtml sources))) = _
    rw [if_neg (by simpa [List.isEmpty_iff] using h)]
  · intro s titles hst hne
    refine ⟨?_, by simp [seqSourceItems]⟩
    unfold seqSourceGroup
    rw [hst]
    simp only [Option.getD_some]
    rw [if_neg (by simpa [List.isEmpty_iff] using hne)]
  · intro m sid titles
    exact ⟨rfl, by simp [dictSourceItems]⟩

/-- Witness for C7: a source with 11 titles renders a header count of 11
while only 10 item rows are produced. -/
theorem c7_untruncated_counts_witness :
    seqSourceGroup
        { source_name := some "源",
          titles := some (List.replicate 11 { title := some "t" }) } =
      sourceGroupHtml
        (({ source_name := some "源",
            titles := some (List.replicate 11 { title := some "t" }) } :
          SourceRecord).source_name.getD "未知平台")
        (List.replicate 11 ({ title := some "t" } : TitleInfo)).length
        (concatStrings (seqSourceItems (List.replicate 11 { title := some "t" }))) ∧
    (seqSourceItems (List.replicate 11 ({ title := some "t" } : TitleInfo))).length =
      min 10 (List.replicate 11 ({ title := some "t" } : TitleInfo)).length :=
  c7_untruncated_counts.2.2.2.2.1
    { source_name := some "源", titles := some (List.replicate 11 { title := some "t" }) }
    (List.replicate 11 { title := some "t" }) rfl (by decide)

/-- The characters of an explicitly built string. -/
theorem data_mk (l : List Char) : (String.mk l).data = l := rfl

/-- A `takeWhile` runs through a fully satisfying prefix. -/
theorem takeWhile_append_all {p : Char → Bool} {xs ys : List Char}
    (h : ∀ c ∈ xs, p c = true) :
    (xs ++ ys).takeWhile p = xs ++ ys.takeWhile p := by
  induction xs with
  | nil => simp
  | cons c cs ih =>
    rw [List.cons_append, List.takeWhile_cons_of_pos (h c (by simp)), List.cons_append,
      ih (fun d hd => h d (by simp [hd]))]

/-- A `dropWhile` discards a fully satisfying prefix. -/
theorem dropWhile_append_all {p : Char → Bool} {xs ys : List Char}
    (h : ∀ c ∈ xs, p c = true) :
    (xs ++ ys).dropWhile p = ys.dropWhile p := by
  induction xs with
  | nil => simp
  | cons c cs ih =>
    rw [List.cons_append, List.dropWhile_cons_of_pos (h c (by simp)),
      ih (fun d hd => h d (by simp [hd]))]

/-- The greedy regex capture on a string of the shape
`# whitespace* token stop…` is exactly `# whitespace* token`. -/
theorem leadingHashMatch_of_shape (ws tok rest : List Char)
    (hws : ∀ c ∈ ws, isPySpace c = true)
    (htok : ∀ c ∈ tok, c ≠ '#' ∧ isPySpace c = false)
    (hne : tok ≠ [])
    (hstop : stopsToken rest) :
    leadingHashMatch (String.mk ('#' :: (ws ++ (tok ++ rest)))) =
      some (String.mk ('#' :: (ws ++ tok))) := by
  have hq : ∀ c ∈ tok, (c != '#' && !isPySpace c) = true := by
    intro c hc
    simp [bne_iff_ne, (htok c hc).1, (htok c hc).2]
  have htksp : (tok ++ rest).takeWhile isPySpace = [] := by
    cases tok with
    | nil => exact absurd rfl hne
    | cons t ts =>
      rw [List.cons_append, List.takeWhile_cons_of_neg (by simp [(htok t (by simp)).2])]
  have hdrop1 : (tok ++ rest).dropWhile isPySpace = tok ++ rest := by
    cases tok with
    | nil => exact absurd rfl hne
    | cons t ts =>
      rw [List.cons_append, List.dropWhile_cons_of_neg (by simp [(htok t (by simp)).2])]
  have h1 : (ws ++ (tok ++ rest)).takeWhile isPySpace = ws := by
    rw [takeWhile_append_all hws, htksp, List.append_nil]
  have h2 : (ws ++ (tok ++ rest)).dropWhile isPySpace = tok ++ rest := by
    rw [dropWhile_append_all hws, hdrop1]
  have hrest_q : rest.takeWhile (fun d => d != '#' && !isPySpace d) = [] := by
    cases rest with
    | nil => rfl
    | cons r rs =>
      have hstop' : r = '#' ∨ isPySpace r = true := hstop
      rcases hstop' with h | h
      · rw [List.takeWhile_cons_of_neg (by simp [h])]
      · rw [List.takeWhile_cons_of_neg (by simp [h])]
  have h3 : (tok ++ rest).takeWhile (fun d => d != '#' && !isPySpace d) = tok := by
    rw [takeWhile_append_all hq, hrest_q, List.append_nil]
  simp only [leadingHashMatch, data_mk]
  simp [h1, h2, h3, List.isEmpty_iff, hne]

/-- A whitespace prefix is skipped by the splitter. -/
theorem splitAux_append_space :
    ∀ (pre ys : List Char), (∀ c ∈ pre, isPySpace c = true) →
      splitAux (pre ++ ys) [] = splitAux ys [] := by
  intro pre
  induction pre with
  | nil => simp
  | cons c cs ih =>
    intro ys h
    show splitAux (c :: (cs ++ ys)) [] = splitAux ys []
    simp only [splitAux, h c (by simp), if_true]
    exact ih ys (fun d hd => h d (by simp [hd]))

/-- A run of non-whitespace characters is accumulated by the splitter. -/
theorem splitAux_token :
    ∀ (tok rest cur : List Char), (∀ c ∈ tok, isPySpace c = false) →
      splitAux (tok ++ rest) cur = splitAux rest (tok.reverse ++ cur) := by
  intro tok
  induction tok with
  | nil => simp
  | cons c cs ih =>
    intro rest cur h
    show splitAux (c :: (cs ++ rest)) cur = _
    simp only [splitAux, h c (by simp)]
    rw [ih rest (c :: cur) (fun d hd => h d (by simp [hd]))]
    simp

/-- On a string shaped `space* token space …`, Python `split()` yields
the token first. -/
theorem pySplit_head (pre tok rest : List Char)
    (hpre : ∀ c ∈ pre, isPySpace c = true)
    (htok : ∀ c ∈ tok, isPySpace c = false)
    (hne : tok ≠ [])
    (hrest : spaceOrEnd rest) :
    ∃ tail, pySplit (String.mk (pre ++ (tok ++ rest))) = String.mk tok :: tail := by
  have hrne : tok.reverse ≠ [] := by simpa using hne
  obtain ⟨r, rs, hrr⟩ := List.exists_cons_of_ne_nil hrne
  unfold pySplit
  rw [data_mk, splitAux_append_space pre (tok ++ rest) hpre, splitAux_token tok rest [] htok,
    List.append_nil, hrr]
  cases rest with
  | nil =>
    refine ⟨[], ?_⟩
    show ([(r :: rs).reverse]).map String.mk = _
    rw [← hrr, List.reverse_reverse]
    rfl
  | cons c cs =>
    have hc : isPySpace c = true := hrest
    refine ⟨(splitAux cs []).map String.mk, ?_⟩
    simp only [splitAux, hc, if_true]
    rw [← hrr, List.reverse_reverse]
    rfl

/-- The splitter yields nothing on pure whitespace. -/
theorem splitAux_all_space :
    ∀ (l : List Char), (∀ c ∈ l, isPySpace c = true) → splitAux l [] = [] := by
  intro l
  induction l with
  | nil => exact fun _ => rfl
  | cons c cs ih =>
    intro h
    simp only [splitAux, h c (by simp), if_true]
    exact ih (fun d hd => h d (by simp [hd]))

/-- The leading-hash pattern cannot match an all-whitespace string. -/
theorem leadingHashMatch_all_space (w : String) (h : ∀ c ∈ w.data, isPySpace c = true) :
    leadingHashMatch w = none := by
  cases hd : w.data with
  | nil => simp [leadingHashMatch, hd]
  | cons c cs =>
    have hc : isPySpace c = true := h c (by simp [hd])
    have hch : c ≠ '#' := by
      intro hh
      rw [hh] at hc
      exact absurd hc (by decide)
    simp [leadingHashMatch, hd, hch]

/-- C3: the displayed group name is the trimmed greedy leading-hash
capture when `word` starts with `#`, optional whitespace and a non-empty
run of non-hash non-whitespace characters; otherwise the first
whitespace-delimited token of `word`; and `word` itself when `word` has
no tokens at all. -/
theorem c3_display_name :
    (∀ ws tok rest : List Char,
      (∀ c ∈ ws, isPySpace c = true) →
      (∀ c ∈ tok, c ≠ '#' ∧ isPySpace c = false) →
      tok ≠ [] →
      stopsToken rest →
      display_name (String.mk ('#' :: (ws ++ (tok ++ rest)))) =
        pyStrip (String.mk ('#' :: (ws ++ tok)))) ∧
    (∀ pre tok rest : List Char,
      (∀ c ∈ pre, isPySpace c = true) →
      (∀ c ∈ tok, isPySpace c = false) →
      tok ≠ [] →
      spaceOrEnd rest →
      leadingHashMatch (String.mk (pre ++ (tok ++ rest))) = none →
      display_name (String.mk (pre ++ (tok ++ rest))) = String.mk tok) ∧
    (∀ word : String, (∀ c ∈ word.data, isPySpace c = true) → display_name word = word) := by
  refine ⟨?_, ?_, ?_⟩
  · intro ws tok rest hws htok hne hstop
    rw [display_name, leadingHashMatch_of_shape ws tok rest hws htok hne hstop]
  · intro pre tok rest hpre htok hne hrest hnone
    obtain ⟨tail, htail⟩ := pySplit_head pre tok rest hpre htok hne hrest
    rw [display_name, hnone, htail]
  · intro word h
    have hnone := leadingHashMatch_all_space word h
    have hsplit : pySplit word = [] := by
      unfold pySplit
      rw [splitAux_all_space word.data h]
      rfl
    rw [display_name, hnone, hsplit]

/-- Witness for C3: "#财经 重要新闻" displays "#财经", the hash-free
"重要新闻 其他" displays "重要新闻", the empty word displays itself, and
the ideographic space U+3000 delimits tokens exactly like an ASCII
space, both after a hash capture and for plain splitting. -/
theorem c3_display_name_witness :
    display_name (String.mk ('#' :: ([] ++ (['财', '经'] ++ [' ', '重', '要', '新', '闻'])))) =
      pyStrip (String.mk ('#' :: ([] ++ ['财', '经']))) ∧
    display_name (String.mk ([] ++ (['重', '要', '新', '闻'] ++ [' ', '其', '他']))) =
      String.mk ['重', '要', '新', '闻'] ∧
    display_name "" = "" ∧
    display_name (String.mk ('#' :: ([] ++ (['a', 'b', 'c'] ++ ['　', 'd', 'e', 'f'])))) =
      pyStrip (String.mk ('#' :: ([] ++ ['a', 'b', 'c']))) ∧
    display_name (String.mk ([] ++ (['重', '要'] ++ ['　', '新', '闻']))) =
      String.mk ['重', '要'] :=
  ⟨c3_display_name.1 [] ['财', '经'] [' ', '重', '要', '新', '闻'] (by simp) (by decide)
      (by decide) (Or.inr rfl),
   c3_display_name.2.1 [] ['重', '要', '新', '闻'] [' ', '其', '他'] (by simp) (by decide)
      (by decide) rfl (by decide),
   c3_display_name.2.2 "" (by simp),
   c3_display_name.1 [] ['a', 'b', 'c'] ['　', 'd', 'e', 'f'] (by simp) (by decide)
      (by decide) (Or.inr (by decide)),
   c3_display_name.2.1 [] ['重', '要'] ['　', '新', '闻'] (by simp) (by decide)
      (by decide) rfl (by decide)⟩

/-- Unpacking one title correspondence. -/
theorem corrTitle_elim {t : String} {d : NewTitleData} {ti : TitleInfo}
    (h : corrTitle t d ti = true) :
    ∃ r u, d.rank = some r ∧ d.url = some u ∧ ti.title = some t ∧
      ti.ranks = some [r] ∧ ti.url = some u := by
  unfold corrTitle at h
  simp only [Bool.and_eq_true, beq_iff_eq, Option.isSome_iff_exists] at h
  obtain ⟨⟨⟨⟨⟨r, hr⟩, ⟨u, hu⟩⟩, htitle⟩, hranks⟩, hurl⟩ := h
  refine ⟨r, u, hr, hu, htitle, ?_, ?_⟩
  · rw [hranks, hr]
    rfl
  · rw [hurl, hu]

/-- Corresponding titles render identical new-item rows. -/
theorem corrTitle_item {t : String} {d : NewTitleData} {ti : TitleInfo}
    (h : corrTitle t d ti = true) (idx : Nat) :
    newItemHtml idx (d.rank.getD 0) (d.url.getD "") t =
      newItemHtml idx (newRankFromInfo ti) (ti.url.getD "") (ti.title.getD "") := by
  obtain ⟨r, u, hr, hu, htitle, hranks, hurl⟩ := corrTitle_elim h
  unfold newRankFromInfo
  rw [hr, hu, htitle, hranks, hurl]
  rfl

/-- Corresponding title lists have equal lengths. -/
theorem corrTitles_length : ∀ {tds : List (String × NewTitleData)} {tis : List TitleInfo},
    corrTitles tds tis = true → tds.length = tis.length := by
  intro tds
  induction tds with
  | nil =>
    intro tis h
    cases tis with
    | nil => rfl
    | cons y ys => simp [corrTitles] at h
  | cons x xs ih =>
    obtain ⟨t, d⟩ := x
    intro tis h
    cases tis with
    | nil => simp [corrTitles] at h
    | cons y ys =>
      simp only [corrTitles, Bool.and_eq_true] at h
      simp [ih h.2]

/-- Corresponding sources render identical per-source item rows. -/
theorem corr_items {tds : List (String × NewTitleData)} {tis : List TitleInfo}
    (h : corrTitles tds tis = true) :
    dictSourceItems tds = seqSourceItems tis := by
  suffices haux : ∀ (tds2 : List (String × NewTitleData)) (tis2 : List TitleInfo) (n k : Nat),
      corrTitles tds2 tis2 = true →
      (List.enumFrom n (tds2.take k)).map (fun p =>
        newItemHtml p.1 (p.2.2.rank.getD 0) (p.2.2.url.getD "") p.2.1) =
      (List.enumFrom n (tis2.take k)).map (fun p =>
        newItemHtml p.1 (newRankFromInfo p.2) (p.2.url.getD "") (p.2.title.getD "")) by
    exact haux tds tis 1 10 h
  intro tds2
  induction tds2 with
  | nil =>
    intro tis2 n k h2
    cases tis2 with
    | nil => simp
    | cons y ys => simp [corrTitles] at h2
  | cons x xs ih =>
    obtain ⟨t, d⟩ := x
    intro tis2 n k h2
    cases tis2 with
    | nil => simp [corrTitles] at h2
    | cons y ys =>
      simp only [corrTitles, Bool.and_eq_true] at h2
      cases k with
      | zero => rfl
      | succ k2 =>
        simp only [List.take_succ_cons, List.enumFrom, List.map_cons]
        rw [corrTitle_item h2.1 n, ih ys (n + 1) k2 h2.2]

/-- Unpacking one source correspondence. -/
theorem corrSource_elim {m : List (String × String)} {sid : String}
    {td : List (String × NewTitleData)} {s : SourceRecord}
    (h : corrSource m sid td s = true) :
    s.source_name = some (pyGet m sid sid) ∧
      ∃ l, s.titles = some l ∧ corrTitles td l = true := by
  unfold corrSource at h
  cases hst : s.titles with
  | none =>
    rw [hst] at h
    simp at h
  | some l =>
    rw [hst] at h
    simp only [Bool.and_eq_true, beq_iff_eq] at h
    exact ⟨h.1, l, rfl, h.2⟩

/-- Corresponding sources are empty together, render identical groups
when non-empty, and carry equal untruncated counts. -/
theorem corrSource_group {m : List (String × String)} {sid : String}
    {td : List (String × NewTitleData)} {s : SourceRecord}
    (h : corrSource m sid td s = true) :
    (td.isEmpty = true → seqSourceGroup s = "") ∧
      (td.isEmpty = false → dictSourceGroup m sid td = seqSourceGroup s) ∧
      td.length = (s.titles.getD []).length := by
  obtain ⟨hname, l, hst, hcorr⟩ := corrSource_elim h
  have hlen := corrTitles_length hcorr
  refine ⟨?_, ?_, by simp [hst, hlen]⟩
  · intro he
    have hle : l.isEmpty = true := by
      rw [List.isEmpty_iff] at he ⊢
      rw [he] at hlen
      exact List.length_eq_zero.mp hlen.symm
    simp only [seqSourceGroup]
    rw [hst]
    simp [hle]
  · intro he
    have hle : l.isEmpty = false := by
      cases hl2 : l with
      | nil =>
        rw [hl2] at hlen
        have htd : td = [] := List.length_eq_zero.mp (by simpa using hlen)
        rw [htd] at he
        simp at he
      | cons y ys => rfl
    simp only [dictSourceGroup, seqSourceGroup]
    rw [hst, hname]
    simp only [Option.getD_some]
    rw [if_neg (by simp [hle])]
    rw [hlen, corr_items hcorr]

/-- Under correspondence, the dict-branch loop (with an actual mapping)
computes exactly the list-branch accumulation. -/
theorem corr_fold {m : List (String × String)} :
    ∀ {D : List (String × List (String × NewTitleData))} {L : List SourceRecord},
      corrNewTitles m D L = true → ∀ acc,
      dictItemsHtmlAux (some m) D acc =
        some (L.foldl (fun a s => a ++ seqSourceGroup s) acc) := by
  intro D
  induction D with
  | nil =>
    intro L h acc
    cases L with
    | nil => rfl
    | cons s ls => simp [corrNewTitles] at h
  | cons p D2 ih =>
    obtain ⟨sid, td⟩ := p
    intro L h acc
    cases L with
    | nil => simp [corrNewTitles] at h
    | cons s ls =>
      simp only [corrNewTitles, Bool.and_eq_true] at h
      obtain ⟨hsrc, hrest⟩ := h
      obtain ⟨hempty, hgroup, -⟩ := corrSource_group hsrc
      cases he : td.isEmpty with
      | true =>
        simp only [dictItemsHtmlAux, he, if_true]
        rw [List.foldl_cons, hempty he, String.append_empty]
        exact ih hrest acc
      | false =>
        simp only [dictItemsHtmlAux, he, Bool.false_eq_true, if_false]
        rw [List.foldl_cons, hgroup he]
        exact ih hrest (acc ++ seqSourceGroup s)

/-- Under correspondence, the untruncated totals agree. -/
theorem corr_total {m : List (String × String)} :
    ∀ {D : List (String × List (String × NewTitleData))} {L : List SourceRecord},
      corrNewTitles m D L = true → totalCountDict D = totalCountSeq L := by
  suffices haux : ∀ (D : List (String × List (String × NewTitleData))) (L : List SourceRecord),
      corrNewTitles m D L = true → ∀ n : Nat,
      D.foldl (fun acc p => acc + p.2.length) n =
        L.foldl (fun acc s => acc + (s.titles.getD []).length) n by
    intro D L h
    exact haux D L h 0
  intro D
  induction D with
  | nil =>
    intro L h n
    cases L with
    | nil => rfl
    | cons s ls => simp [corrNewTitles] at h
  | cons p D2 ih =>
    obtain ⟨sid, td⟩ := p
    intro L h n
    cases L with
    | nil => simp [corrNewTitles] at h
    | cons s ls =>
      simp only [corrNewTitles, Bool.and_eq_true] at h
      obtain ⟨-, -, hlen⟩ := corrSource_group h.1
      rw [List.foldl_cons, List.foldl_cons, hlen]
      exact ih ls h.2 _

/-- Under correspondence, the two shapes are empty together. -/
theorem corr_isEmpty {m : List (String × String)}
    {D : List (String × List (String × NewTitleData))} {L : List SourceRecord}
    (h : corrNewTitles m D L = true) : D.isEmpty = L.isEmpty := by
  cases D with
  | nil =>
    cases L with
    | nil => rfl
    | cons s ls => simp [corrNewTitles] at h
  | cons p D2 =>
    obtain ⟨sid, td⟩ := p
    cases L with
    | nil => simp [corrNewTitles] at h
    | cons s ls => rfl

/-- C1: shape-equivalent dict-form and list-form `newTitles` inputs
(with `idToName` resolving each source-id to the corresponding record's
source name) produce identical new-items sections: the same untruncated
total count and the same per-source fragments. -/
theorem c1_shape_equivalence (m : List (String × String))
    (D : List (String × List (String × NewTitleData))) (L : List SourceRecord)
    (h : corrNewTitles m D L = true) :
    generate_new_news_html (.dict D) (some m) = generate_new_news_html (.seq L) (some m) := by
  show (if D.isEmpty = true then some ""
      else (dictItemsHtml D (some m)).map (fun items =>
        newSectionWrapper (totalCountDict D) items)) =
    (if L.isEmpty = true then some ""
      else some (newSectionWrapper (totalCountSeq L) (seqItemsHtml L)))
  rw [corr_isEmpty h]
  cases hL : L.isEmpty with
  | true => simp
  | false =>
    rw [if_neg (by simp [hL]), if_neg (by simp [hL])]
    unfold dictItemsHtml
    rw [corr_fold h ""]
    show some (newSectionWrapper (totalCountDict D)
        (L.foldl (fun a s => a ++ seqSourceGroup s) "")) =
      some (newSectionWrapper (totalCountSeq L) (seqItemsHtml L))
    rw [corr_total h]
    rfl

/-- Witness for C1: the spec's example pair of shape-equivalent inputs
renders identically. -/
theorem c1_shape_equivalence_witness :
    generate_new_news_html
        (.dict [("src1", [("t1", { rank := some 1, url := some "u" })])])
        (some [("src1", "源一")]) =
      generate_new_news_html
        (.seq [{ source_name := some "源一",
                 titles := some [{ title := some "t1", ranks := some [1], url := some "u" }] }])
        (some [("src1", "源一")]) :=
  c1_shape_equivalence [("src1", "源一")]
    [("src1", [("t1", { rank := some 1, url := some "u" })])]
    [{ source_name := some "源一",
       titles := some [{ title := some "t1", ranks := some [1], url := some "u" }] }]
    (by decide)

end TrendRadar
